import Mathlib

/-!
Verification development for the HeartFive card-game rules engine.

The definitions below are a shallow embedding of the TypeScript sources:
`CardModel` (src/models/Card.ts), `Deck` (src/models/Deck.ts),
`MeldDetector` (src/models/Meld.ts), `PlayerModel` (src/models/Player.ts),
`GameStateManager` (src/services/GameState.ts) and the bot strategies
(src/ai/BotStrategy.ts).  JavaScript numbers are embedded as `Int` where
negative values occur (run ranks, bot scores) and as `Nat` for counts;
JavaScript stable `Array.sort` with a numeric comparator is embedded as
the stable `List.insertionSort` of the corresponding preorder; record objects keyed
by rank strings are embedded as insertion-ordered association lists (a
comment marks each place where JavaScript key-iteration order could differ
and why it does not affect the stated results).
-/

/-- Embeds the `Card` value produced by the `CardModel` constructor.
The source field `notation` is called `nota` here. -/
structure Card where
  nota : String
  rank : String
  suit : Option String
  isJoker : Bool
  is5H : Bool
deriving DecidableEq, Repr

/-- Embeds `new CardModel(notation)` / `CardModel.fromNotation`:
`isJoker` is true exactly for the strings "J1" and "J2"; jokers keep the
whole string as rank and carry no suit, any other string is split into a
1-character rank and a 1-character suit. -/
def mkCard (n : String) : Card :=
  if n == "J1" || n == "J2" then
    { nota := n, rank := n, suit := none, isJoker := true, is5H := n == "5H" }
  else
    { nota := n, rank := n.take 1, suit := some ((n.drop 1).take 1),
      isJoker := false, is5H := n == "5H" }

/-- The `singleRanks` array of `CardModel.getSingleRankValue`. -/
def singleRanks : List String :=
  ["3", "4", "5", "6", "7", "8", "9", "T", "J", "Q", "K", "A", "2", "J1", "J2"]

/-- Embeds `CardModel.getSingleRankValue`: 16 for the five of hearts,
otherwise 1 + the index in `singleRanks`, and 0 for a rank not listed. -/
def getSingleRankValue (c : Card) : Int :=
  if c.is5H then 16
  else
    match singleRanks.findIdx? (fun r => r == c.rank) with
    | some i => (i : Int) + 1
    | none => 0

/-- The `runRanks` array of `CardModel.getRunRankValue`. -/
def runRanks : List String :=
  ["2", "3", "4", "5", "6", "7", "8", "9", "T", "J", "Q", "K", "A"]

/-- Embeds `CardModel.getRunRankValue`: -1 for jokers, otherwise 1 + the
index in `runRanks`, and 0 for a rank not listed. -/
def getRunRankValue (c : Card) : Int :=
  if c.isJoker then -1
  else
    match runRanks.findIdx? (fun r => r == c.rank) with
    | some i => (i : Int) + 1
    | none => 0

/-- Embeds `CardModel.sortBySingleRank`.  The JavaScript comparator
`a - b` performs a stable ascending sort by value; a stable sort under a
total preorder has a unique result, so the structurally recursive
`insertionSort` of that preorder computes exactly it. -/
def sortBySingleRank (cards : List Card) : List Card :=
  cards.insertionSort (fun a b => getSingleRankValue a ≤ getSingleRankValue b)

/-- Stable ascending sort by run rank, embedding the inline
`.sort((a, b) => getRunRankValue(a) - getRunRankValue(b))` of `MeldDetector`
(see `sortBySingleRank` for why `insertionSort` is the right sort). -/
def sortByRunRank (cards : List Card) : List Card :=
  cards.insertionSort (fun a b => getRunRankValue a ≤ getRunRankValue b)

/-- The eight meld type tags of the source `MeldType` union. -/
inductive MeldType where
  | single
  | pair
  | triple
  | fullHouse
  | sisters
  | run
  | fourOfKindBomb
  | straightFlushBomb
deriving DecidableEq, Repr

/-- Embeds the source `Meld` record: a type tag, the constituent cards and
the stored strength. -/
structure Meld where
  type : MeldType
  cards : List Card
  strength : Int
deriving DecidableEq, Repr

/-- One step of rank grouping: append the card to its rank group, or open a
new group at the end.  Together with `groupByRank` this embeds the
`rankGroups[card.rank].push(card)` loops of the source. -/
def addToGroups (gs : List (String × List Card)) (c : Card) : List (String × List Card) :=
  match gs with
  | [] => [(c.rank, [c])]
  | (r, cs) :: rest =>
    if r == c.rank then (r, cs ++ [c]) :: rest
    else (r, cs) :: addToGroups rest c

/-- Embeds the rank-grouping record built by `MeldDetector` and
`GameStateManager.groupByRank`.  Groups appear in first-occurrence order;
JavaScript iterates integer-like keys first, but every use below (sizes,
counts, membership, per-group generation, sums) is independent of the order
in which the groups are listed. -/
def groupByRank (cards : List Card) : List (String × List Card) :=
  cards.foldl addToGroups []

/-- Embeds `MeldDetector.getRankCounts`. -/
def getRankCounts (cards : List Card) : List (String × Nat) :=
  (groupByRank cards).map (fun g => (g.1, g.2.length))

/-- Embeds `MeldDetector.isPair`: exactly two cards, no jokers, equal rank. -/
def isPair (cards : List Card) : Bool :=
  match cards with
  | [a, b] => !a.isJoker && !b.isJoker && a.rank == b.rank
  | _ => false

/-- Embeds `MeldDetector.isTriple`: exactly three cards of equal rank. -/
def isTriple (cards : List Card) : Bool :=
  match cards with
  | [a, b, c] => a.rank == b.rank && b.rank == c.rank
  | _ => false

/-- Embeds `MeldDetector.isFourOfKind`: exactly four cards, all of the
rank of the first card. -/
def isFourOfKind (cards : List Card) : Bool :=
  match cards with
  | [a, b, c, d] => b.rank == a.rank && c.rank == a.rank && d.rank == a.rank
  | _ => false

/-- Embeds `MeldDetector.isFullHouse`: exactly five cards whose rank-count
multiset contains a 3 and a 2. -/
def isFullHouse (cards : List Card) : Bool :=
  cards.length == 5 &&
    (let counts := (getRankCounts cards).map (fun g => g.2)
     counts.contains 3 && counts.contains 2)

/-- Pairwise check that each value is exactly one more than the previous,
embedding the `currValue - prevValue !== 1` loops of the source. -/
def consecutive : List Int → Bool
  | [] => true
  | [_] => true
  | a :: b :: rest => (b - a == 1) && consecutive (b :: rest)

/-- Single-play value of the first card of a rank group, embedding the
`rankGroups[rank][0]` accesses of the sisters checks. -/
def groupFirstVal (g : String × List Card) : Int :=
  match g.2 with
  | c :: _ => getSingleRankValue c
  | [] => 0

/-- Embeds `MeldDetector.isPairSisters`: even card count, every rank group
of size exactly 2, and the groups consecutive in single-play value.  The
source sorts the rank keys by the value of their first card and then
compares successive values; here the representative values are sorted
directly, which performs the identical comparisons. -/
def isPairSisters (cards : List Card) : Bool :=
  if cards.length % 2 != 0 then false
  else
    let groups := groupByRank (sortBySingleRank cards)
    if !(groups.all (fun g => g.2.length == 2)) then false
    else
      let vals := groups.map groupFirstVal
      consecutive (vals.insertionSort (fun a b => a ≤ b))

/-- Embeds `MeldDetector.isTripleSisters`: as `isPairSisters` with rank
groups of size exactly 3. -/
def isTripleSisters (cards : List Card) : Bool :=
  if cards.length % 3 != 0 then false
  else
    let groups := groupByRank (sortBySingleRank cards)
    if !(groups.all (fun g => g.2.length == 3)) then false
    else
      let vals := groups.map groupFirstVal
      consecutive (vals.insertionSort (fun a b => a ≤ b))

/-- Embeds `MeldDetector.isSisters`: try triple sisters when the count is a
multiple of 3 of at least 6, then pair sisters when the count is a multiple
of 2 of at least 4. -/
def isSisters (cards : List Card) : Bool :=
  (if cards.length ≥ 6 && cards.length % 3 == 0 then isTripleSisters cards else false) ||
  (if cards.length ≥ 4 && cards.length % 2 == 0 then isPairSisters cards else false)

/-- Embeds `MeldDetector.isRun`, including the (unreachable) special branch
the source guards with `sortedCards[0].rank === 'A'` after sorting
ascending by run value. -/
def isRun (cards : List Card) : Bool :=
  if cards.length < 5 then false
  else if cards.any (fun c => c.isJoker) then false
  else if (cards.map getRunRankValue).any (fun v => v ≤ 0) then false
  else
    let sorted := sortByRunRank cards
    let specialOk :=
      match sorted with
      | first :: rest =>
        sorted.length ≥ 5 && first.rank == "A" &&
        (match sorted.getLast? with
         | some lastC => lastC.rank == "K"
         | none => false) &&
        consecutive (rest.map getRunRankValue) &&
        (match rest with
         | r0 :: _ => r0.rank == "T"
         | [] => false)
      | [] => false
    if specialOk then true
    else consecutive (sorted.map getRunRankValue)

/-- Embeds `MeldDetector.isStraightFlush`: a run in which every card has
the suit of the first card. -/
def isStraightFlush (cards : List Card) : Bool :=
  isRun cards &&
    (match cards with
     | c :: _ => cards.all (fun x => x.suit == c.suit)
     | [] => true)

/-- Embeds `MeldDetector.detectMeldType`, in the source priority order. -/
def detectMeldType (cards : List Card) : Option MeldType :=
  if cards.length == 0 then none
  else if cards.length == 1 then some .single
  else if cards.length == 2 && isPair cards then some .pair
  else if cards.length == 3 && isTriple cards then some .triple
  else if cards.length == 4 && isFourOfKind cards then some .fourOfKindBomb
  else if cards.length == 5 && isFullHouse cards then some .fullHouse
  else if isSisters cards then some .sisters
  else if cards.length ≥ 5 && isStraightFlush cards then some .straightFlushBomb
  else if cards.length ≥ 5 && isRun cards then some .run
  else none

/-- Embeds the `fullHouse` branch of `MeldDetector.getMeldStrength`: find a
rank counted 3 times, take the first card of that rank, special-case the
five of hearts, otherwise use that first card's single value.  In any
5-card full house exactly one rank is counted 3 times, so which count-3
entry the key order yields first does not matter. -/
def fullHouseStrength (cards : List Card) : Int :=
  match (getRankCounts cards).find? (fun rc => rc.2 == 3) with
  | some (r, _) =>
    match cards.find? (fun c => c.rank == r) with
    | some card =>
      if card.nota == "5H" && (cards.filter (fun c => c.nota == "5H")).length > 0 then
        if (cards.filter (fun c => c.rank == "5")).any (fun c => c.is5H) then 16
        else getSingleRankValue card
      else getSingleRankValue card
    | none => 0
  | none => 0

/-- Embeds `MeldDetector.getMeldStrength`.  The source reads
`meld.cards[0]` (or the last element of a sorted copy); an empty card list
would crash there and is mapped to 0 here, and no meld built by
`createMeld` has an empty card list. -/
def getMeldStrength (m : Meld) : Int :=
  match m.type with
  | .single | .pair | .triple | .fourOfKindBomb =>
    match m.cards with
    | c :: _ => getSingleRankValue c
    | [] => 0
  | .fullHouse => fullHouseStrength m.cards
  | .sisters =>
    match (sortBySingleRank m.cards).getLast? with
    | some c => getSingleRankValue c
    | none => 0
  | .run | .straightFlushBomb =>
    match (sortByRunRank m.cards).getLast? with
    | some c => getRunRankValue c
    | none => 0

/-- Embeds the private `MeldDetector.isBomb`. -/
def isBomb (t : MeldType) : Bool :=
  t == .fourOfKindBomb || t == .straightFlushBomb

/-- Embeds `MeldDetector.canBeat(currentMeld, previousMeld)`. -/
def canBeat (cur prev : Meld) : Bool :=
  if isBomb cur.type && !isBomb prev.type then true
  else if cur.type == .straightFlushBomb && prev.type == .fourOfKindBomb then true
  else if cur.type != prev.type then false
  else if (cur.type == .run || cur.type == .straightFlushBomb)
          && cur.cards.length != prev.cards.length then false
  else decide (getMeldStrength cur > getMeldStrength prev)

/-- Embeds `MeldDetector.createMeld`: classify, then attach the strength
computed on a meld record carrying the detected type. -/
def createMeld (cards : List Card) : Option Meld :=
  (detectMeldType cards).map (fun t =>
    { type := t, cards := cards,
      strength := getMeldStrength { type := t, cards := cards, strength := 0 } })

/-- The rank array of `Deck.initializeDeck` (no jokers). -/
def deckRanks : List String :=
  ["3", "4", "5", "6", "7", "8", "9", "T", "J", "Q", "K", "A", "2"]

/-- The suit array of `Deck.initializeDeck`. -/
def deckSuits : List String := ["C", "D", "H", "S"]

/-- Embeds `Deck.initializeDeck`: the 52 rank-suit cards in rank-major
order, followed, when jokers are included, by the two joker cards the
source constructs from the strings "jj" and "JJ". -/
def deckCards (includeJokers : Bool) : List Card :=
  (deckRanks.flatMap (fun r => deckSuits.map (fun s => mkCard (r ++ s)))) ++
    (if includeJokers then [mkCard "jj", mkCard "JJ"] else [])

/-- Embeds `Deck.dealToPlayers`: card number `k` of the deck goes to hand
`k % playerCount`. -/
def dealToPlayers (cards : List Card) (playerCount : Nat) : List (List Card) :=
  (List.range playerCount).map (fun i =>
    ((cards.enum).filter (fun p => p.1 % playerCount == i)).map (fun p => p.2))

/-- Embeds the source `Player` record (`PlayerModel`). -/
structure PlayerSt where
  id : String
  name : String
  hand : List Card
  wins : Nat
  losses : Nat
  isBot : Bool
deriving DecidableEq, Repr

/-- Embeds `PlayerModel.hasCards`: every meld card's two-character string
must occur among the strings of the hand (set membership, not counted with
multiplicity). -/
def hasCards (hand : List Card) (cards : List Card) : Bool :=
  cards.all (fun c => (hand.map (fun h => h.nota)).contains c.nota)

/-- Embeds `PlayerModel.removeCards`: drop from the hand every card whose
string occurs in the played meld. -/
def removeCards (hand : List Card) (cards : List Card) : List Card :=
  hand.filter (fun hc => !((cards.map (fun c => c.nota)).contains hc.nota))

/-- One entry of the play history: a play with its meld, or a pass. -/
inductive HistEntry where
  | playAct (pid : String) (m : Meld)
  | passAct (pid : String)
deriving DecidableEq, Repr

/-- Embeds the source `GameState` record owned by `GameStateManager`.
`currentPlayerIndex` is an `Int` because the source stores the result of
`findIndex`, which can be -1. -/
structure GameState where
  round : Nat
  players : List PlayerSt
  currentPlayerIndex : Int
  currentLeader : String
  establishedMeldType : Option MeldType
  lastPlay : Option (String × Meld)
  consecutivePasses : Nat
  deck : List Card
  playHistory : List HistEntry
deriving DecidableEq, Repr

/-- Embeds `GameStateManager.initializeGame` (named `initGame` here): up to
four fixed players, round 1, empty trick state. -/
def initGame (playerCount : Nat) : GameState :=
  let players : List PlayerSt :=
    [{ id := "human", name := "You", hand := [], wins := 0, losses := 0, isBot := false },
     { id := "alice", name := "Alice", hand := [], wins := 0, losses := 0, isBot := true },
     { id := "bob", name := "Bob", hand := [], wins := 0, losses := 0, isBot := true },
     { id := "cat", name := "Cat", hand := [], wins := 0, losses := 0, isBot := true }]
  { round := 1, players := players.take playerCount, currentPlayerIndex := 0,
    currentLeader := "", establishedMeldType := none, lastPlay := none,
    consecutivePasses := 0, deck := [], playHistory := [] }

/-- Embeds `GameStateManager.findStartingPlayer`: index of the first player
holding the card "3H", or 0 when no player holds it. -/
def findStartingPlayer (players : List PlayerSt) : Nat :=
  match players.findIdx? (fun p => p.hand.any (fun c => c.nota == "3H")) with
  | some i => i
  | none => 0

/-- Embeds `GameStateManager.startNewRound` together with the private
`dealCards`.  The shuffled deck is passed in explicitly: `dealCards`
shuffles with `Math.random`, so the shuffle outcome is the random input of
this transition.  `PlayerModel.addCards` sorts the received hand by single
rank, which is reproduced here. -/
def startNewRound (s : GameState) (shuffledDeck : List Card)
    (previousRoundWinnerId : Option String) : GameState :=
  let round1 := s.round + 1
  let hands := dealToPlayers shuffledDeck s.players.length
  let players1 := s.players.enum.map (fun p =>
    { p.2 with hand := sortBySingleRank (hands.getD p.1 []) })
  let startIdx : Nat :=
    if round1 == 1 then findStartingPlayer players1
    else
      match previousRoundWinnerId with
      | some w =>
        match players1.findIdx? (fun p => p.id == w) with
        | some j => j
        | none => 0
      | none => 0
  { s with round := round1, playHistory := [], lastPlay := none,
           establishedMeldType := none, consecutivePasses := 0,
           players := players1, deck := shuffledDeck,
           currentPlayerIndex := (startIdx : Int),
           currentLeader := ((players1.getD startIdx
             { id := "", name := "", hand := [], wins := 0, losses := 0,
               isBot := false }).id) }

/-- Embeds `GameStateManager.isLegalPlay`. -/
def isLegalPlay (s : GameState) (m : Meld) : Bool :=
  match s.establishedMeldType with
  | none => true
  | some est =>
    if m.type == .fourOfKindBomb || m.type == .straightFlushBomb then
      match s.lastPlay with
      | some lp => canBeat m lp.2
      | none => true
    else if m.type != est then false
    else
      match s.lastPlay with
      | some lp => canBeat m lp.2
      | none => true

/-- Embeds `GameStateManager.playMeld`.  The source receives the player
object aliased inside `state.players`; the embedding identifies the acting
player by list index, so the in-place hand mutation becomes `List.set`. -/
def playMeld (s : GameState) (i : Nat) (m : Meld) : Bool × GameState :=
  match s.players.get? i with
  | none => (false, s)
  | some player =>
    if !(hasCards player.hand m.cards) then (false, s)
    else if !(isLegalPlay s m) then (false, s)
    else
      let player1 := { player with hand := removeCards player.hand m.cards }
      (true,
       { s with players := s.players.set i player1,
                lastPlay := some (player.id, m),
                establishedMeldType :=
                  match s.establishedMeldType with
                  | none => some m.type
                  | some t => some t,
                consecutivePasses := 0,
                playHistory := s.playHistory ++ [HistEntry.playAct player.id m] })

/-- Embeds the private `GameStateManager.startNewTrick`. -/
def startNewTrick (s : GameState) : GameState :=
  match s.lastPlay with
  | some lp =>
    let leaderIdx : Int :=
      match s.players.findIdx? (fun p => p.id == lp.1) with
      | some i => (i : Int)
      | none => -1
    { s with currentLeader := lp.1, currentPlayerIndex := leaderIdx,
             establishedMeldType := none, lastPlay := none,
             consecutivePasses := 0 }
  | none =>
    { s with establishedMeldType := none, lastPlay := none,
             consecutivePasses := 0 }

/-- Embeds `GameStateManager.pass` (named `passTurn` here): count the pass,
record it, and resolve the trick once the counter reaches
`playerCount - 1`; the returned flag tells whether a new trick started. -/
def passTurn (s : GameState) (pid : String) : Bool × GameState :=
  let s1 := { s with consecutivePasses := s.consecutivePasses + 1,
                     playHistory := s.playHistory ++ [HistEntry.passAct pid] }
  if s1.consecutivePasses ≥ s1.players.length - 1 then (true, startNewTrick s1)
  else (false, s1)

/-- Embeds `GameStateManager.nextTurn`. -/
def nextTurn (s : GameState) : GameState :=
  { s with currentPlayerIndex := (s.currentPlayerIndex + 1) % (s.players.length : Int) }

/-- All index-ordered 2-element selections of a list, embedding the nested
`i < j` pair loops of `findAllPossibleMelds`. -/
def pairsOf {α : Type} : List α → List (α × α)
  | [] => []
  | x :: xs => (xs.map (fun y => (x, y))) ++ pairsOf xs

/-- All index-ordered 3-element selections, embedding the `i < j < k`
triple loops of `findAllPossibleMelds`. -/
def triplesOf {α : Type} : List α → List (α × α × α)
  | [] => []
  | x :: xs => ((pairsOf xs).map (fun p => (x, p.1, p.2))) ++ triplesOf xs

/-- Embeds the private `GameStateManager.findAllPossibleMelds`: singles,
then per rank group every pair selection (skipped when the group starts
with a joker), every triple selection, and the group itself as a four of a
kind when it has exactly four cards.  The source comments that runs,
sisters, full houses and straight flushes are left out of this
enumeration. -/
def findAllPossibleMelds (hand : List Card) : List Meld :=
  let singles := hand.filterMap (fun card => createMeld [card])
  let groupMelds := (groupByRank hand).flatMap (fun g =>
    let cards := g.2
    let pairMelds :=
      if cards.length ≥ 2 && !(match cards with | c :: _ => c.isJoker | [] => false) then
        (pairsOf cards).filterMap (fun pc => createMeld [pc.1, pc.2])
      else []
    let tripleMelds :=
      if cards.length ≥ 3 then
        (triplesOf cards).filterMap (fun tc => createMeld [tc.1, tc.2.1, tc.2.2])
      else []
    let quadMelds := if cards.length == 4 then (createMeld cards).toList else []
    pairMelds ++ tripleMelds ++ quadMelds)
  singles ++ groupMelds

/-- Embeds the private `GameStateManager.findMeldsOfType`. -/
def findMeldsOfType (hand : List Card) (t : MeldType) : List Meld :=
  (findAllPossibleMelds hand).filter (fun m => m.type == t)

/-- Embeds the private `GameStateManager.findBombs`: only four-of-a-kind
bombs are produced (the source comment defers straight-flush bombs). -/
def findBombs (hand : List Card) : List Meld :=
  (groupByRank hand).flatMap (fun g =>
    if g.2.length == 4 then
      match createMeld g.2 with
      | some m => if m.type == .fourOfKindBomb then [m] else []
      | none => []
    else [])

/-- Embeds `GameStateManager.getLegalMoves`. -/
def getLegalMoves (s : GameState) (p : PlayerSt) : List Meld :=
  if p.id == s.currentLeader && s.establishedMeldType.isNone then
    findAllPossibleMelds p.hand
  else
    match s.establishedMeldType with
    | some est =>
      let moves := findMeldsOfType p.hand est ++ findBombs p.hand
      match s.lastPlay with
      | some lp => moves.filter (fun m => canBeat m lp.2)
      | none => moves
    | none => []

/-- A bot decision: play a meld or pass, embedding the source
`BotDecision` record. -/
inductive BotDecision where
  | play (m : Meld)
  | pass
deriving DecidableEq, Repr

/-- Embeds `BotStrategy.hasBombInHand`: some rank group has exactly four
cards (the source comment defers straight-flush bombs). -/
def hasBombInHand (hand : List Card) : Bool :=
  (groupByRank hand).any (fun g => g.2.length == 4)

/-- Embeds `BotStrategy.has5HInHand`. -/
def has5HInHand (hand : List Card) : Bool :=
  hand.any (fun c => c.is5H)

/-- Embeds `BotStrategy.evaluateHandStrength`: sum the single values of
cards worth at least 13, plus 100 for a bomb and 50 for the five of
hearts. -/
def evaluateHandStrength (hand : List Card) : Int :=
  (hand.foldl (fun acc c =>
    if getSingleRankValue c ≥ 13 then acc + getSingleRankValue c else acc) 0)
  + (if hasBombInHand hand then 100 else 0)
  + (if has5HInHand hand then 50 else 0)

/-- Embeds `BeginnerBot.makeDecision`.  The two `Math.random()` draws are
passed in: `randPass` is the outcome of the `< 0.3` pass roll, and
`randIdx % length` ranges over exactly the indices
`Math.floor(Math.random() * length)` can produce. -/
def beginnerDecide (player : PlayerSt) (st : GameState) (legalMoves : List Meld)
    (randPass : Bool) (randIdx : Nat) : BotDecision :=
  if legalMoves.isEmpty then .pass
  else if player.id != st.currentLeader && randPass then .pass
  else
    match legalMoves.get? (randIdx % legalMoves.length) with
    | some m => .play m
    | none => .pass

/-- Embeds the private `IntermediateBot.isBomb` / the bomb test of
`AdvancedBot.scoreMeld`. -/
def isBombMeld (m : Meld) : Bool :=
  m.type == .fourOfKindBomb || m.type == .straightFlushBomb

/-- Embeds `IntermediateBot.makeDecision`: sort ascending by strength; a
leader plays the weakest move; with five or fewer cards left play the
strongest; with a strong hand play the weakest non-bomb when one exists;
otherwise play the weakest move. -/
def intermediateDecide (player : PlayerSt) (st : GameState)
    (legalMoves : List Meld) : BotDecision :=
  if legalMoves.isEmpty then .pass
  else
    let sorted := legalMoves.insertionSort
      (fun a b => getMeldStrength a ≤ getMeldStrength b)
    match sorted with
    | [] => .pass
    | s0 :: rest =>
      if player.id == st.currentLeader then .play s0
      else if player.hand.length ≤ 5 then
        .play ((s0 :: rest).getLast?.getD s0)
      else if evaluateHandStrength player.hand > 150 && !(isBombMeld s0) then
        match (s0 :: rest).filter (fun m => !(isBombMeld m)) with
        | [] => .play s0
        | nb0 :: _ => .play nb0
      else .play s0

/-- The analysis record computed by `AdvancedBot.analyzeGameState`.
`minOpponentCards` is `none` when the player list holds no opponents
(the source `Math.min()` of no arguments is Infinity, which fails every
`<=` comparison made with it, exactly as `none` does below). -/
structure BotAnalysis where
  cardsRemaining : Nat
  isLeader : Bool
  someoneCloseToWinning : Bool
  hasBomb : Bool
  has5H : Bool
  shouldPass : Bool
  minOpponentCards : Option Nat
deriving DecidableEq, Repr

/-- Embeds `AdvancedBot.analyzeGameState`.  `randRoll` is the outcome of
the `Math.random() < 0.4` draw. -/
def analyzeGameState (player : PlayerSt) (st : GameState) (randRoll : Bool) :
    BotAnalysis :=
  let cardsRemaining := player.hand.length
  let isLeader := player.id == st.currentLeader
  let opponentCardCounts :=
    (st.players.filter (fun p => p.id != player.id)).map (fun p => p.hand.length)
  let minOpponentCards := opponentCardCounts.min?
  let someoneCloseToWinning :=
    match minOpponentCards with
    | some m => m ≤ 3
    | none => false
  let shouldPass :=
    if !isLeader && cardsRemaining > 10 && !someoneCloseToWinning then
      let lastPlayStrength : Int :=
        match st.lastPlay with
        | some lp => getMeldStrength lp.2
        | none => 0
      lastPlayStrength > 10 && randRoll
    else false
  { cardsRemaining := cardsRemaining, isLeader := isLeader,
    someoneCloseToWinning := someoneCloseToWinning,
    hasBomb := hasBombInHand player.hand, has5H := has5HInHand player.hand,
    shouldPass := shouldPass, minOpponentCards := minOpponentCards }

/-- Embeds `AdvancedBot.scoreMeld`.  The final loop walks the set of ranks
in the meld; the set is embedded as `dedup` of the rank list, and since
each qualifying rank contributes the same +5, the iteration order of the
set does not change the sum. -/
def scoreMeld (meld : Meld) (player : PlayerSt) (analysis : BotAnalysis) : Int :=
  let strength := getMeldStrength meld
  let bomb := isBombMeld meld
  let base := strength
  let situational : Int :=
    if analysis.isLeader then
      (-(meld.cards.length : Int) * 2) +
      (if analysis.cardsRemaining > 10 then
        (if meld.type == .single then 10 else 0) +
        (if meld.type == .pair then 8 else 0)
       else 0)
    else
      (if analysis.someoneCloseToWinning && !bomb then -20 else 0)
  let bombScore : Int :=
    if bomb then
      (if analysis.someoneCloseToWinning || analysis.cardsRemaining ≤ 5 then 50
       else -30)
    else 0
  let fiveScore : Int :=
    if meld.cards.any (fun c => c.is5H) then
      (if analysis.cardsRemaining ≤ 3 ||
          (match analysis.minOpponentCards with
           | some m => m ≤ 2
           | none => false) then 100
       else -50)
    else 0
  let rankGroups := groupByRank player.hand
  let groupBonus : Int :=
    ((meld.cards.map (fun c => c.rank)).dedup).foldl (fun acc r =>
      match rankGroups.find? (fun g => g.1 == r) with
      | some g =>
        if g.2.length == (meld.cards.filter (fun c => c.rank == r)).length then
          acc + 5
        else acc
      | none => acc) 0
  base + situational + bombScore + fiveScore + groupBonus

/-- Embeds `AdvancedBot.rankMoves`: stable sort by score, best first (the
source comparator `scoreB - scoreA` orders descending by score). -/
def rankMoves (moves : List Meld) (player : PlayerSt) (analysis : BotAnalysis) :
    List Meld :=
  moves.insertionSort (fun a b =>
    scoreMeld b player analysis ≤ scoreMeld a player analysis)

/-- Embeds `AdvancedBot.makeDecision`.  `randRoll` is the outcome of the
pass roll inside `analyzeGameState`. -/
def advancedDecide (player : PlayerSt) (st : GameState) (legalMoves : List Meld)
    (randRoll : Bool) : BotDecision :=
  if legalMoves.isEmpty then .pass
  else
    let analysis := analyzeGameState player st randRoll
    let sorted := rankMoves legalMoves player analysis
    if analysis.shouldPass then .pass
    else
      match sorted with
      | [] => .pass
      | s0 :: _ => .play s0

/-! Claim inputs.  Each `cN...` definition below is a concrete input used
only by the theorems of claim N. -/

/-- A 5-card A-2-3-4-5 selection (run order), mixed suits, no jokers. -/
def c1LowCards : List Card :=
  [mkCard "AH", mkCard "2D", mkCard "3C", mkCard "4H", mkCard "5S"]

/-- A 5-card 10-J-Q-K-A selection, mixed suits. -/
def c1HighCards : List Card :=
  [mkCard "TH", mkCard "JD", mkCard "QC", mkCard "KH", mkCard "AS"]

/-- The 4-card J-Q-K-A selection. -/
def c1FourCards : List Card :=
  [mkCard "JH", mkCard "QD", mkCard "KC", mkCard "AH"]

/-- Claim C1: the code classifies 10-J-Q-K-A as a Run and rejects the
4-card J-Q-K-A, but, contrary to the claim (and to the repository's own
test expecting A-2-3-4-5 to be a run), it classifies A-2-3-4-5 as no meld:
after the ascending run-value sort the first card of the sorted list can
never be an Ace, so the A-low special branch of `isRun` is unreachable and
the ordinary consecutiveness check fails at the 5-to-A gap. -/
theorem c1_run_classification_on_code :
    detectMeldType c1LowCards = none ∧
    detectMeldType c1HighCards = some MeldType.run ∧
    detectMeldType c1FourCards = none := by
  decide

/-- A hand that is itself a five-card run. -/
def c2Hand : List Card :=
  [mkCard "3H", mkCard "4D", mkCard "5C", mkCard "6H", mkCard "7S"]

/-- The holder of `c2Hand`. -/
def c2Player : PlayerSt :=
  { id := "human", name := "You", hand := c2Hand, wins := 0, losses := 0,
    isBot := false }

/-- A state in which `c2Player` is the current leader and no meld type is
established. -/
def c2State : GameState :=
  { round := 2, players := [c2Player], currentPlayerIndex := 0,
    currentLeader := "human", establishedMeldType := none, lastPlay := none,
    consecutivePasses := 0, deck := [], playHistory := [] }

/-- Claim C2: with the leader holding the run 3-4-5-6-7 and no established
type, `getLegalMoves` returns only the five singles — the run that the
classifier itself recognizes in the very same five cards is never offered,
contrary to the claim that every constructible meld of all 8 types is
enumerated (the source comments that runs, sisters and full houses are
left out of `findAllPossibleMelds`). -/
theorem c2_leader_enumeration_on_code :
    detectMeldType c2Hand = some MeldType.run ∧
    (getLegalMoves c2State c2Player).length = 5 ∧
    (getLegalMoves c2State c2Player).all (fun m => m.type == MeldType.single) = true := by
  decide

/-- A shuffled deck (truncated to 8 cards, which `dealToPlayers` deals
round-robin) that places "3H" in the hand of player index 1. -/
def c3Deck : List Card :=
  [mkCard "4D", mkCard "3H", mkCard "6S", mkCard "7C",
   mkCard "8D", mkCard "9C", mkCard "TS", mkCard "JD"]

/-- The first round started after construction, with that deal. -/
def c3State : GameState := startNewRound (initGame 4) c3Deck none

/-- Claim C3: in the first round started after construction the deal gives
"3H" to player index 1 ("alice") and to nobody else, and
`findStartingPlayer` would report index 1, yet the round starts with
leader "human" (index 0): `startNewRound` increments `round` from 1 to 2
before testing `round === 1`, so the starter-card branch never runs,
contrary to the claim and to the repository's own test that the current
player of the new round holds "3H". -/
theorem c3_first_round_leader_on_code :
    c3State.round = 2 ∧
    findStartingPlayer c3State.players = 1 ∧
    (c3State.players.get? 1).map (fun p => (p.id, p.hand.any (fun c => c.nota == "3H")))
      = some ("alice", true) ∧
    (c3State.players.get? 0).map (fun p => p.hand.any (fun c => c.nota == "3H"))
      = some false ∧
    c3State.currentLeader = "human" ∧
    c3State.currentPlayerIndex = 0 := by
  decide

/-- Claim C4: the freshly constructed deck carries its two jokers as the
strings "jj" and "JJ", which `CardModel` does not recognize as jokers
("J1"/"J2" are the recognized spellings), so the dealt small joker has
single-play value 0 and the dealt big joker has value 9 (the value of an
ordinary Jack), and the claimed chain value(2) < value(small joker) fails:
every 2 has value 13. -/
theorem c4_deck_joker_single_values_on_code :
    (deckCards true).length = 54 ∧
    (deckCards true).drop 52 = [mkCard "jj", mkCard "JJ"] ∧
    (mkCard "jj").isJoker = false ∧
    (mkCard "JJ").isJoker = false ∧
    getSingleRankValue (mkCard "jj") = 0 ∧
    getSingleRankValue (mkCard "JJ") = 9 ∧
    getSingleRankValue (mkCard "2C") = 13 ∧
    getSingleRankValue (mkCard "5H") = 16 ∧
    ¬(getSingleRankValue (mkCard "2C") < getSingleRankValue (mkCard "jj")) := by
  decide

/-- A full house listing the five of hearts first. -/
def c5FullHouse1 : List Card :=
  [mkCard "5H", mkCard "5D", mkCard "5C", mkCard "7H", mkCard "7D"]

/-- The same five cards with the first two swapped. -/
def c5FullHouse2 : List Card :=
  [mkCard "5D", mkCard "5H", mkCard "5C", mkCard "7H", mkCard "7D"]

/-- Claim C5: the same full-house card multiset gets strength 16 when the
five of hearts is listed first but strength 3 when "5D" is listed first
(the source special-case comment says the triple should score 16 whenever
one of its fives is the actual five of hearts), and likewise for the pair
of fives, so `createMeld` strength is not a function of the card multiset,
contrary to the claim. -/
theorem c5_strength_depends_on_card_order :
    c5FullHouse1.Perm c5FullHouse2 ∧
    (createMeld c5FullHouse1).map Meld.type = some MeldType.fullHouse ∧
    (createMeld c5FullHouse2).map Meld.type = some MeldType.fullHouse ∧
    (createMeld c5FullHouse1).map Meld.strength = some 16 ∧
    (createMeld c5FullHouse2).map Meld.strength = some 3 ∧
    (createMeld [mkCard "5H", mkCard "5D"]).map Meld.strength = some 16 ∧
    (createMeld [mkCard "5D", mkCard "5H"]).map Meld.strength = some 3 := by
  refine ⟨List.Perm.swap _ _ _, ?_, ?_, ?_, ?_, ?_, ?_⟩ <;> decide

/-- A player holding exactly one "5D" (and a "3C"). -/
def c6Player : PlayerSt :=
  { id := "human", name := "You", hand := [mkCard "5D", mkCard "3C"],
    wins := 0, losses := 0, isBot := false }

/-- An open-trick state in which `c6Player` leads. -/
def c6State : GameState :=
  { round := 2, players := [c6Player], currentPlayerIndex := 0,
    currentLeader := "human", establishedMeldType := none, lastPlay := none,
    consecutivePasses := 0, deck := [], playHistory := [] }

/-- The meld naming the single physical card "5D" twice. -/
def c6DupMeld : Meld :=
  { type := MeldType.pair, cards := [mkCard "5D", mkCard "5D"], strength := 3 }

/-- Claim C6 counterexample: the classifier accepts "5D 5D" as a pair, the
player holds only one "5D" (so the meld is not held counting
multiplicity), yet `playMeld` accepts the play and mutates the state,
contrary to the claim that such a play is rejected with the state
unchanged. -/
theorem c6_duplicate_card_meld_accepted :
    createMeld [mkCard "5D", mkCard "5D"] = some c6DupMeld ∧
    c6Player.hand.count (mkCard "5D") = 1 ∧
    c6DupMeld.cards.count (mkCard "5D") = 2 ∧
    (playMeld c6State 0 c6DupMeld).1 = true ∧
    (playMeld c6State 0 c6DupMeld).2 ≠ c6State := by
  decide

/-- Claim C6 (amended): whenever the hand check of the source — every meld
card's string present in the hand, without counting multiplicity — fails,
or the meld is not legal against the established type and last play,
`playMeld` reports failure and returns the state completely unchanged. -/
theorem c6_rejected_play_leaves_state_unchanged
    (s : GameState) (i : Nat) (m : Meld) (p : PlayerSt)
    (hp : s.players.get? i = some p)
    (h : hasCards p.hand m.cards = false ∨ isLegalPlay s m = false) :
    playMeld s i m = (false, s) := by
  unfold playMeld
  rw [hp]
  rcases h with h | h
  · simp [h]
  · cases hc : hasCards p.hand m.cards <;> simp [hc, h]

/-- A pair of nines that `c6Player` does not hold. -/
def c6AbsentMeld : Meld :=
  { type := MeldType.pair, cards := [mkCard "9H", mkCard "9D"], strength := 7 }

/-- Witness for claim C6: at the concrete state, playing an absent pair is
rejected and the state is returned unchanged. -/
theorem c6_rejection_witness :
    playMeld c6State 0 c6AbsentMeld = (false, c6State) :=
  c6_rejected_play_leaves_state_unchanged c6State 0 c6AbsentMeld c6Player
    (by decide) (Or.inl (by decide))

/-- Claim C7: `canBeat` is irreflexive, and two melds of the same type
(with equal card counts when the type is a run or straight-flush bomb)
whose computed strengths are equal beat each other in neither direction. -/
theorem c7_canBeat_irreflexive_equal_strength (A B : Meld)
    (htype : A.type = B.type)
    (hlen : A.type = MeldType.run ∨ A.type = MeldType.straightFlushBomb →
      A.cards.length = B.cards.length)
    (hstr : getMeldStrength A = getMeldStrength B) :
    canBeat A A = false ∧ canBeat A B = false ∧ canBeat B A = false := by
  refine ⟨?_, ?_, ?_⟩
  · rcases A with ⟨t, cs, st⟩
    cases t <;> simp [canBeat, isBomb, lt_irrefl]
  · rcases A with ⟨t, cs, st⟩
    rcases B with ⟨t2, cs2, st2⟩
    simp only at htype
    subst htype
    cases t <;>
      simp_all [canBeat, isBomb, le_refl, hstr, lt_irrefl]
  · rcases A with ⟨t, cs, st⟩
    rcases B with ⟨t2, cs2, st2⟩
    simp only at htype
    subst htype
    cases t <;>
      simp_all [canBeat, isBomb, le_refl, hstr, lt_irrefl]

/-- A pair of threes. -/
def c7PairA : Meld :=
  { type := MeldType.pair, cards := [mkCard "3H", mkCard "3D"], strength := 1 }

/-- Another pair of threes, equal in strength to `c7PairA`. -/
def c7PairB : Meld :=
  { type := MeldType.pair, cards := [mkCard "3C", mkCard "3S"], strength := 1 }

/-- Witness for claim C7 at two concrete equal-strength pairs. -/
theorem c7_witness :
    canBeat c7PairA c7PairA = false ∧
    canBeat c7PairA c7PairB = false ∧
    canBeat c7PairB c7PairA = false :=
  c7_canBeat_irreflexive_equal_strength c7PairA c7PairB rfl
    (fun _ => by decide) (by decide)

/-- Claim C8: when the game state has a last play and one more pass brings
the consecutive-pass counter to playerCount - 1, `passTurn` reports that a
new trick started, makes the owner of the last play the current leader and
the current turn pointer, clears the established meld type and the last
play, and resets the pass counter to zero. -/
theorem c8_trick_resolution (s : GameState) (pid owner : String) (m : Meld) (i : Nat)
    (hlast : s.lastPlay = some (owner, m))
    (hcount : s.consecutivePasses + 1 = s.players.length - 1)
    (hidx : s.players.findIdx? (fun p => p.id == owner) = some i) :
    (passTurn s pid).1 = true ∧
    (passTurn s pid).2.currentLeader = owner ∧
    (passTurn s pid).2.currentPlayerIndex = (i : Int) ∧
    (passTurn s pid).2.establishedMeldType = none ∧
    (passTurn s pid).2.lastPlay = none ∧
    (passTurn s pid).2.consecutivePasses = 0 := by
  have hge : s.consecutivePasses + 1 ≥ s.players.length - 1 := by omega
  simp [passTurn, startNewTrick, hlast, hidx, hge]

/-- The single nine of spades owned by "alice" as a last play. -/
def c8Meld : Meld :=
  { type := MeldType.single, cards := [mkCard "9S"], strength := 7 }

/-- A 3-player state (established single, alice played last, one pass
already counted) one pass away from trick resolution. -/
def c8State : GameState :=
  { round := 2,
    players :=
      [{ id := "human", name := "You", hand := [mkCard "3C"], wins := 0,
         losses := 0, isBot := false },
       { id := "alice", name := "Alice", hand := [mkCard "4C"], wins := 0,
         losses := 0, isBot := true },
       { id := "bob", name := "Bob", hand := [mkCard "5C"], wins := 0,
         losses := 0, isBot := true }],
    currentPlayerIndex := 2, currentLeader := "human",
    establishedMeldType := some MeldType.single,
    lastPlay := some ("alice", c8Meld), consecutivePasses := 1, deck := [],
    playHistory := [] }

/-- Witness for claim C8: bob's pass resolves the trick in favor of alice. -/
theorem c8_witness :
    (passTurn c8State "bob").1 = true ∧
    (passTurn c8State "bob").2.currentLeader = "alice" ∧
    (passTurn c8State "bob").2.currentPlayerIndex = (1 : Int) ∧
    (passTurn c8State "bob").2.establishedMeldType = none ∧
    (passTurn c8State "bob").2.lastPlay = none ∧
    (passTurn c8State "bob").2.consecutivePasses = 0 :=
  c8_trick_resolution c8State "bob" "alice" c8Meld 1 rfl (by decide) (by decide)

/-- Claim C9: each of the three bot tiers either passes or plays a meld
that is an element of the supplied legal-move list — for every player,
state and outcome of the internal random draws — and each tier passes
whenever the legal-move list is empty. -/
theorem c9_bots_never_invent_plays (player : PlayerSt) (st : GameState)
    (lm : List Meld) (rp : Bool) (ri : Nat) (rr : Bool) :
    ((∃ m, m ∈ lm ∧ beginnerDecide player st lm rp ri = .play m) ∨
       beginnerDecide player st lm rp ri = .pass) ∧
    (lm = [] → beginnerDecide player st lm rp ri = .pass) ∧
    ((∃ m, m ∈ lm ∧ intermediateDecide player st lm = .play m) ∨
       intermediateDecide player st lm = .pass) ∧
    (lm = [] → intermediateDecide player st lm = .pass) ∧
    ((∃ m, m ∈ lm ∧ advancedDecide player st lm rr = .play m) ∨
       advancedDecide player st lm rr = .pass) ∧
    (lm = [] → advancedDecide player st lm rr = .pass) := by
  refine ⟨?_, ?_, ?_, ?_, ?_, ?_⟩
  · unfold beginnerDecide
    cases he : lm.isEmpty
    · by_cases hpass : (player.id != st.currentLeader && rp) = true
      · simp [he, hpass]
      · cases hg : lm.get? (ri % lm.length)
        · simp [he, hpass, hg]
        · exact Or.inl ⟨_, List.get?_mem hg, by simp [he, hpass, hg]⟩
    · simp [he]
  · intro h; subst h; simp [beginnerDecide]
  · unfold intermediateDecide
    cases he : lm.isEmpty
    · cases hs : lm.insertionSort (fun a b => getMeldStrength a ≤ getMeldStrength b) with
      | nil => simp [he, hs]
      | cons s0 rest =>
        have hmem : ∀ x, x ∈ s0 :: rest → x ∈ lm := by
          intro x hx
          have hx2 : x ∈ lm.insertionSort
              (fun a b => getMeldStrength a ≤ getMeldStrength b) := hs ▸ hx
          exact (List.mem_insertionSort _).mp hx2
        by_cases hl : (player.id == st.currentLeader) = true
        · exact Or.inl ⟨s0, hmem s0 (List.mem_cons_self _ _), by simp [he, hs, hl]⟩
        · by_cases hc5 : player.hand.length ≤ 5
          · refine Or.inl ⟨(s0 :: rest).getLast?.getD s0, ?_, by simp [he, hs, hl, hc5]⟩
            have hne : (s0 :: rest) ≠ [] := by simp
            rw [List.getLast?_eq_getLast _ hne]
            exact hmem _ (List.getLast_mem hne)
          · by_cases hstrong :
                (evaluateHandStrength player.hand > 150 && !(isBombMeld s0)) = true
            · cases hf : (s0 :: rest).filter (fun m => !(isBombMeld m)) with
              | nil =>
                exact Or.inl ⟨s0, hmem s0 (List.mem_cons_self _ _),
                  by simp [he, hs, hl, hc5, hstrong, hf]⟩
              | cons nb0 nbrest =>
                refine Or.inl ⟨nb0, ?_, by simp [he, hs, hl, hc5, hstrong, hf]⟩
                have hnb : nb0 ∈ (s0 :: rest).filter (fun m => !(isBombMeld m)) := by
                  rw [hf]; exact List.mem_cons_self _ _
                exact hmem _ (List.mem_filter.mp hnb).1
            · exact Or.inl ⟨s0, hmem s0 (List.mem_cons_self _ _),
                by simp [he, hs, hl, hc5, hstrong]⟩
    · simp [he]
  · intro h; subst h; simp [intermediateDecide]
  · unfold advancedDecide
    cases he : lm.isEmpty
    · by_cases hp : (analyzeGameState player st rr).shouldPass = true
      · simp [he, hp]
      · cases hs : rankMoves lm player (analyzeGameState player st rr) with
        | nil => simp [he, hp, hs]
        | cons s0 rest =>
          refine Or.inl ⟨s0, ?_, by simp [he, hp, hs]⟩
          have hx : s0 ∈ rankMoves lm player (analyzeGameState player st rr) := by
            rw [hs]; exact List.mem_cons_self _ _
          exact (List.mem_insertionSort _).mp hx
    · simp [he]
  · intro h; subst h; simp [advancedDecide]

/-- A bot seat used to instantiate claim C9. -/
def c9Player : PlayerSt :=
  { id := "alice", name := "Alice", hand := [mkCard "3C"], wins := 0,
    losses := 0, isBot := true }

/-- A state used to instantiate claim C9. -/
def c9State : GameState := initGame 4

/-- Witness for claim C9: with an empty legal-move list all three tiers
pass. -/
theorem c9_witness :
    beginnerDecide c9Player c9State [] true 0 = .pass ∧
    intermediateDecide c9Player c9State [] = .pass ∧
    advancedDecide c9Player c9State [] false = .pass :=
  ⟨(c9_bots_never_invent_plays c9Player c9State [] true 0 false).2.1 rfl,
   (c9_bots_never_invent_plays c9Player c9State [] true 0 false).2.2.2.1 rfl,
   (c9_bots_never_invent_plays c9Player c9State [] true 0 false).2.2.2.2.2 rfl⟩

/-- Claim C10: a player who is not the current leader facing a state with
no established meld type is offered no legal moves at all, whatever the
hand. -/
theorem c10_nonleader_open_trick_empty (s : GameState) (p : PlayerSt)
    (hleader : (p.id == s.currentLeader) = false)
    (hest : s.establishedMeldType = none) :
    getLegalMoves s p = [] := by
  simp [getLegalMoves, hleader, hest]

/-- A non-leader holding a hand full of melds. -/
def c10Player : PlayerSt :=
  { id := "bob", name := "Bob",
    hand := [mkCard "3H", mkCard "3D", mkCard "3C", mkCard "3S", mkCard "4H"],
    wins := 0, losses := 0, isBot := true }

/-- An open-trick state led by somebody else. -/
def c10State : GameState :=
  { round := 2, players := [c10Player], currentPlayerIndex := 0,
    currentLeader := "alice", establishedMeldType := none, lastPlay := none,
    consecutivePasses := 0, deck := [], playHistory := [] }

/-- Witness for claim C10: bob, not the leader, gets the empty move list
even though his hand contains a quad bomb. -/
theorem c10_witness : getLegalMoves c10State c10Player = [] :=
  c10_nonleader_open_trick_empty c10State c10Player (by decide) rfl
